import Mathlib

/-!
Verification development for the redwood retrieval-and-verification pipeline
(src/transport.go and src/phrase_scan.go), shallowly embedded in Lean 4.

Conventions of the embedding:
* Go byte strings are `List Char` (ASCII) or `List Nat` (raw bytes).
* Go errors compared by dynamic type (`reflect.TypeOf`) are modelled as
  `Option Nat`: `none` is a nil error (success), `some k` is an error whose
  dynamic type is the tag `k`.
* External verification (crypto/x509 `Certificate.Verify`) is an oracle
  parameter: a function from (leaf, intermediates, optional root pool,
  dns name) to an outcome.  `none` in the root-pool position stands for the
  system default roots.
* Stream readers are modelled by the byte sequence they yield.
-/

namespace Redwood

/-! ## Minimal Protocol Client (simpleTransport, src/transport.go lines 183-270) -/

/-- `strings.IndexByte(line, ' ') == -1` test: does the list contain a space? -/
def hasSpace (l : List Char) : Bool := l.any (· == ' ')

/-- `line[:i]` for `i` the first space: everything before the first space. -/
def beforeFirstSpace (l : List Char) : List Char := l.takeWhile (· ≠ ' ')

/-- `line[i+1:]` for `i` the first space: everything after the first space. -/
def afterFirstSpace (l : List Char) : List Char := (l.dropWhile (· ≠ ' ')).drop 1

/-- `strings.TrimLeft(s, " ")`: drop leading spaces. -/
def trimLeftSpaces (l : List Char) : List Char := l.dropWhile (· == ' ')

/-- Decimal digit run to a number; `none` if empty or a non-digit occurs
(the digit part of `strconv.ParseInt` in base 10). -/
def digitsToNat : List Char → Option Nat
  | [] => none
  | l =>
    if l.all Char.isDigit then
      some (l.foldl (fun acc c => acc * 10 + (c.toNat - 48)) 0)
    else none

/-- Model of Go `strconv.ParseInt(s, 10, 64)` (and `strconv.Atoi` on a 64-bit
platform): optional single leading sign, then a non-empty digit run, value
must fit in int64. -/
def goParseInt64 (s : List Char) : Option Int :=
  let core : List Char → Bool → Option Int := fun digits neg =>
    match digitsToNat digits with
    | none => none
    | some n =>
      if neg then
        if (n : Int) ≤ 2 ^ 63 then some (-(n : Int)) else none
      else
        if (n : Int) < 2 ^ 63 then some (n : Int) else none
  match s with
  | '+' :: rest => core rest false
  | '-' :: rest => core rest true
  | _ => core s false

/-- Model of Go stdlib `http.ParseHTTPVersion`: the two common versions fast,
otherwise exactly the shape `HTTP/X.Y` with single digits. -/
def parseHTTPVersion (vers : List Char) : Option (Nat × Nat) :=
  if vers = "HTTP/1.1".toList then some (1, 1)
  else if vers = "HTTP/1.0".toList then some (1, 0)
  else
    match vers with
    | 'H' :: 'T' :: 'T' :: 'P' :: '/' :: maj :: '.' :: [min] =>
      if maj.isDigit && min.isDigit then some (maj.toNat - 48, min.toNat - 48)
      else none
    | _ => none

/-- The byte is not the space delimiter. -/
def notSpace (c : Char) : Bool := c != ' '

/-- Errors of the hand-rolled response-head parser. -/
inductive ParseErr where
  | malformedResponse
  | malformedStatusCode
  | malformedVersion
  | invalidContentLength
  deriving DecidableEq, Repr

/-- Parsed status line: protocol token, status text, status code, version. -/
structure StatusLine where
  proto : List Char
  status : List Char
  statusCode : Int
  protoMajor : Nat
  protoMinor : Nat
  deriving DecidableEq, Repr

/-- Embedding of the status-line parsing in `simpleTransport.RoundTrip`
(src/transport.go lines 220-240): split on the first space into protocol and
status text (leading spaces trimmed), take the first space-delimited token of
the status text as the status code, require exactly 3 characters and a
non-negative `Atoi` result, then parse the protocol version. -/
def parseStatusLine (line : List Char) : Except ParseErr StatusLine :=
  if hasSpace line then
    let proto := beforeFirstSpace line
    let status := trimLeftSpaces (afterFirstSpace line)
    let statusCode := status.takeWhile notSpace
    if statusCode.length ≠ 3 then .error .malformedStatusCode
    else
      match goParseInt64 statusCode with
      | none => .error .malformedStatusCode
      | some n =>
        if n < 0 then .error .malformedStatusCode
        else
          match parseHTTPVersion proto with
          | none => .error .malformedVersion
          | some (maj, min) =>
            .ok { proto := proto, status := status, statusCode := n,
                  protoMajor := maj, protoMinor := min }
  else .error .malformedResponse

/-- `http.Header.Get`: first value for the key, or `""` if absent. -/
def headerGet (hs : List (List Char × List Char)) (k : List Char) : List Char :=
  match hs.find? (fun p => p.1 == k) with
  | some p => p.2
  | none => []

/-- `http.Header.Del`: remove all entries for the key. -/
def headerDel (hs : List (List Char × List Char)) (k : List Char) :
    List (List Char × List Char) :=
  hs.filter (fun p => p.1 ≠ k)

/-- The bytes an `io.LimitedReader{br, n}` yields when `br` would yield
`remaining`: nothing if the limit is not positive, else up to `n` bytes. -/
def limitedRead (n : Int) (remaining : List Nat) : List Nat :=
  if n ≤ 0 then [] else remaining.take n.toNat

/-- The response `simpleTransport.RoundTrip` exposes: head fields, the
remaining header set, the bytes the body stream yields, and whether the body
close operation closes the underlying connection. -/
structure SimpleResp where
  statusLine : StatusLine
  contentLength : Int
  headers : List (List Char × List Char)
  bodyBytes : List Nat
  closerIsConn : Bool
  deriving DecidableEq, Repr

/-- Embedding of the response construction in `simpleTransport.RoundTrip`
(src/transport.go lines 212-269), after the generic line/MIME-header
splitting done by `textproto` (external to this repository): parse the status
line; read `Content-Length` (default `0` when the header is absent, error on
an unparsable value); delete the `Content-Length` and `Trailer` headers;
expose the body as a `LimitedReader` over the connection limited to
`contentLength`, closing the connection on body close. -/
def simpleRoundTrip (line : List Char) (hdrs : List (List Char × List Char))
    (remaining : List Nat) : Except ParseErr SimpleResp :=
  match parseStatusLine line with
  | .error e => .error e
  | .ok sl =>
    let cl := headerGet hdrs "Content-Length".toList
    let parsedCL : Except ParseErr Int :=
      if cl ≠ [] then
        match goParseInt64 cl with
        | none => .error .invalidContentLength
        | some n => .ok n
      else .ok 0
    match parsedCL with
    | .error e => .error e
    | .ok n =>
      .ok { statusLine := sl
            contentLength := n
            headers := headerDel (headerDel hdrs "Content-Length".toList) "Trailer".toList
            bodyBytes := limitedRead n remaining
            closerIsConn := true }

/-- Spec-side predicate for C5: the token parses via `Atoi` as a
non-negative base-10 integer. -/
def parsesNonNegInt (tok : List Char) : Bool :=
  match goParseInt64 tok with
  | some n => decide (0 ≤ n)
  | none => false

/-! ## Certificate-Substitution Detector
(hardValidationTransport, src/transport.go lines 66-179) -/

/-- An x509 certificate, reduced to what the detector inspects: its raw
SubjectPublicKeyInfo bytes and a serial distinguishing otherwise equal
certificates. -/
structure Cert where
  rawSPKI : List Nat
  serial : Nat
  deriving DecidableEq, Repr

/-- Outcome of one `Certificate.Verify` call, as the detector sees it:
`none` is a nil error (success); `some k` is an error whose dynamic type
(`reflect.TypeOf`) is the tag `k`. -/
abbrev Outcome := Option Nat

/-- The external `crypto/x509` verifier: from leaf, intermediate pool, root
pool (`none` = the system default roots) and DNS name to an outcome. -/
structure VerifyOracle where
  verify : Cert → List Cert → Option (List Cert) → List Char → Outcome

/-- `sameType(a, b)` (src/transport.go lines 116-118): equality of the
the dynamic types of the errors; the type of a nil error equals only that of a nil error. -/
def sameType (a b : Outcome) : Bool :=
  match a, b with
  | none, none => true
  | some k, some j => k == j
  | _, _ => false

/-- Acceptance test applied after each verification in `RoundTrip`:
`err == nil || sameType(err, expected)`. -/
def checkAccept (outcome expected : Outcome) : Bool :=
  outcome.isNone || sameType outcome expected

/-- Spec-side predicate (data model §3): two `VerificationOutcome`s are
equivalent iff both are `Success`, or both are `Failure` with the same
category. -/
def categoryEq (a b : Outcome) : Bool :=
  match a, b with
  | none, none => true
  | some k, some j => k == j
  | _, _ => false

/-- The state of a `hardValidationTransport` (src/transport.go lines 70-87):
the original chain (leaf first), the pinned server name, the pool built from
every original certificate, and the two baseline outcomes. -/
structure HVT where
  originalCertificates : List Cert
  originalServerName : List Char
  originalCertPool : List Cert
  expectedErrDefault : Outcome
  expectedErrOriginal : Outcome
  deriving Repr

/-- Placeholder leaf used only to spell `certificates[0]`; every transport
built by `newHardValidationTransport` has a non-empty chain, so it is never
reached there. -/
def dCert : Cert := { rawSPKI := [], serial := 0 }

/-- `newHardValidationTransport` (src/transport.go lines 91-114) on a chain
`leaf :: rest`: pool all certificates, then record the outcome of verifying
the leaf against the system default roots with the pool as intermediates,
and against the pool as the sole root set, both with the pinned name. -/
def newHardValidationTransport (o : VerifyOracle) (serverName : List Char)
    (leaf : Cert) (rest : List Cert) : HVT :=
  let pool := leaf :: rest
  { originalCertificates := leaf :: rest
    originalServerName := serverName
    originalCertPool := pool
    expectedErrDefault := o.verify leaf pool none serverName
    expectedErrOriginal := o.verify leaf [] (some pool) serverName }

/-- A TLS response as the detector inspects it: the presented chain (leaf
first, non-empty in any completed handshake) and whether its body has been
closed. -/
structure TLSResp where
  peerLeaf : Cert
  peerRest : List Cert
  bodyClosed : Bool
  deriving DecidableEq, Repr

/-- The error value `errCouldNotVerify` (src/transport.go line 89). -/
def errCouldNotVerify : List Char :=
  "server certificate changed; can\x27t verify the new certificate".toList

/-- Step 1 of the decision chain (line 131): raw public-key equality between
the new leaf and the original leaf. -/
def fastPathAccept (t : HVT) (resp : TLSResp) : Bool :=
  resp.peerLeaf.rawSPKI == (t.originalCertificates.headD dCert).rawSPKI

/-- Step 2 (lines 141-147): verify the new leaf against the system default
roots with the rest of the new chain as intermediates, for `host`; accept on
a nil error or one whose type matches `expectedErrDefault`. -/
def defaultCheckAccept (o : VerifyOracle) (t : HVT) (host : List Char)
    (resp : TLSResp) : Bool :=
  checkAccept (o.verify resp.peerLeaf resp.peerRest none host) t.expectedErrDefault

/-- Step 3 (lines 149-156): the same verification but with the original pool
as the root set; accept on a nil error or one matching `expectedErrOriginal`. -/
def selfCheckAccept (o : VerifyOracle) (t : HVT) (host : List Char)
    (resp : TLSResp) : Bool :=
  checkAccept (o.verify resp.peerLeaf resp.peerRest (some t.originalCertPool) host)
    t.expectedErrOriginal

/-- The certificate decision of `hardValidationTransport.RoundTrip`
(src/transport.go lines 130-179) on a successfully transported response:
fast path on key equality, the two verifications against the request host,
the same two against the pinned name when it differs from the request host,
otherwise close the body and fail with `errCouldNotVerify`. -/
def roundTripVerify (o : VerifyOracle) (t : HVT) (reqHost : List Char)
    (resp : TLSResp) : TLSResp × Option (List Char) :=
  if fastPathAccept t resp then (resp, none)
  else if defaultCheckAccept o t reqHost resp then (resp, none)
  else if selfCheckAccept o t reqHost resp then (resp, none)
  else if reqHost ≠ t.originalServerName &&
      (defaultCheckAccept o t t.originalServerName resp ||
       selfCheckAccept o t t.originalServerName resp) then (resp, none)
  else ({ resp with bodyClosed := true }, some errCouldNotVerify)

/-! ## Character Normalizer (scanContent, src/phrase_scan.go lines 19-75) -/

/-- Modelled from the spec: `wordRune` is called by `scanContent` but its
definition is not among the available sources.  Per §4.5 and the glossary, it
canonicalizes a character to the reduced alphabet of phrase matching:
case-folded letters, and a single separator (the space character) standing in
for whitespace and punctuation. -/
def wordRune (c : Char) : Char :=
  if c.isAlpha then c.toLower else ' '

/-- The decode-and-normalize loop of `scanContent` (src/phrase_scan.go lines
39-67) applied to the already-decoded rune stream (the charset decoder is
external): map each rune through `wordRune`, and skip a separator whenever
the previously emitted rune was a separator (`prevRune`). -/
def normalizeRunes : List Char → Char → List Char
  | [], _ => []
  | c :: rest, prev =>
    let w := wordRune c
    if w = ' ' ∧ prev = ' ' then normalizeRunes rest prev
    else w :: normalizeRunes rest w

/-- The full rune stream `scanContent` feeds to the phrase scanner
(src/phrase_scan.go lines 35, 39-67, 69): one separator scanned up front
with `prevRune` initialized to a separator, the normalized content, then one
separator scanned unconditionally at the end.  (Each rune is fed as its
UTF-8 bytes; for the ASCII alphabet here the byte stream equals the rune
stream.) -/
def scanStream (content : List Char) : List Char :=
  ' ' :: (normalizeRunes content ' ' ++ [' '])

/-! ## Response Decompressor (responseContent, src/phrase_scan.go lines 79-105) -/

/-- The result `responseContent` produces: the content bytes and the header
set after any mutation; `none` models the panics on a read or
decompressor-construction failure. -/
def responseContent (gunzip : List Nat → Option (List Nat))
    (headers : List (List Char × List Char)) (body : List Nat) :
    Option (List Nat × List (List Char × List Char)) :=
  if headerGet headers "Content-Encoding".toList = "gzip".toList then
    if body = [] then
      some ([], headers)
    else
      match gunzip body with
      | none => none
      | some content => some (content, headerDel headers "Content-Encoding".toList)
  else
    some (body, headers)

/-! ## Legacy-Protocol Adapter (FTPTransport, src/transport.go lines 273-323) -/

/-- An HTTP response as `FTPTransport.RoundTrip` builds one.  The Go code
returns the zero-value `nil` body on the 405 path; a `nil` body stream is
modelled as the empty byte sequence. -/
structure FtpResp where
  statusCode : Nat
  protoMajor : Nat
  protoMinor : Nat
  bodyBytes : List Nat
  headers : List (List Char × List Char)
  deriving DecidableEq, Repr

/-- `FTPTransport.RoundTrip` (src/transport.go lines 275-323).  The network
is the oracle `net` from resource path to delivered bytes (`none` = the
transfer could not be started); the MIME lookup `mimeOf` models
`mime.TypeByExtension ∘ path.Ext` on the URL path (`[]` = no recognized
extension).  A non-GET request returns a 405 response with the zero-value
body and headers, touching neither oracle; on GET the asynchronous
pipe-and-status machinery is collapsed to the byte sequence the transfer
delivers. -/
def ftpRoundTrip (net : List Char → Option (List Nat))
    (mimeOf : List Char → List Char) (method : List Char)
    (host urlPath : List Char) : Option FtpResp :=
  if method ≠ "GET".toList then
    some { statusCode := 405, protoMajor := 0, protoMinor := 0,
           bodyBytes := [], headers := [] }
  else
    match net (host ++ urlPath) with
    | none => none
    | some bs =>
      let ct := mimeOf urlPath
      some { statusCode := 200, protoMajor := 1, protoMinor := 1,
             bodyBytes := bs,
             headers := if ct ≠ [] then [("Content-Type".toList, ct)] else [] }

/-! ## Theorems -/

/-- Concrete verifier for the C1 instance: the original leaf (serial 0)
fails verification with an error of type 0, every other leaf verifies
cleanly. -/
def c1Oracle : VerifyOracle :=
  ⟨fun leaf _ _ _ => if leaf.serial = 0 then some 0 else none⟩

/-- C1 instance: anchor built from the single self-chain ⟨[1], 0⟩ for
example.com. -/
def c1T : HVT := newHardValidationTransport c1Oracle "example.com".toList ⟨[1], 0⟩ []

/-- C1 instance: a response presenting a fresh leaf with different key
material. -/
def c1Resp : TLSResp := ⟨⟨[2], 1⟩, [], false⟩

/-- C1: the claim states the second check accepts exactly when the new
outcome category of the verification equals that of `expectedDefaultOutcome`, and in
particular that a verification that newly succeeds while
`expectedDefaultOutcome` was a Failure is not accepted there.  False: the
code accepts on `err == nil` unconditionally (src/transport.go line 145).
Here the original leaf failed default verification (type-0 error), the new
leaf with different key material verifies cleanly, the categories differ,
yet the second check — and the whole round trip — accepts. -/
theorem C1_counterexample :
    c1Resp.peerLeaf.rawSPKI ≠ (c1T.originalCertificates.headD dCert).rawSPKI
    ∧ c1T.expectedErrDefault = some 0
    ∧ c1Oracle.verify c1Resp.peerLeaf c1Resp.peerRest none "example.com".toList = none
    ∧ categoryEq (c1Oracle.verify c1Resp.peerLeaf c1Resp.peerRest none "example.com".toList)
        c1T.expectedErrDefault = false
    ∧ defaultCheckAccept c1Oracle c1T "example.com".toList c1Resp = true
    ∧ roundTripVerify c1Oracle c1T "example.com".toList c1Resp = (c1Resp, none) :=
  ⟨by decide, rfl, rfl, rfl, rfl, rfl⟩

/-- C1 (amended): for every response whose new leaf key material differs
from that of the original leaf, the second check accepts exactly when the new
verification succeeds or its outcome category equals the category of
`expectedDefaultOutcome`; in particular a verification that newly
succeeds while `expectedDefaultOutcome` was a Failure is accepted, and
passing the second check accepts the round trip. -/
theorem C1_default_check_accepts_success_or_matching_category
    (o : VerifyOracle) (t : HVT) (host : List Char) (resp : TLSResp)
    (_hk : resp.peerLeaf.rawSPKI ≠ (t.originalCertificates.headD dCert).rawSPKI) :
    (defaultCheckAccept o t host resp = true ↔
      (o.verify resp.peerLeaf resp.peerRest none host = none ∨
       categoryEq (o.verify resp.peerLeaf resp.peerRest none host)
         t.expectedErrDefault = true))
    ∧ (defaultCheckAccept o t host resp = true →
       roundTripVerify o t host resp = (resp, none)) := by
  constructor
  · unfold defaultCheckAccept checkAccept
    cases o.verify resp.peerLeaf resp.peerRest none host <;>
      simp [sameType, categoryEq]
  · intro hacc
    unfold roundTripVerify fastPathAccept
    simp [hacc]

/-- C1 witness: the amended statement instantiated at the concrete C1
instance, where the second check accepts because verification newly
succeeds. -/
theorem C1_witness :
    defaultCheckAccept c1Oracle c1T "example.com".toList c1Resp = true
    ∧ roundTripVerify c1Oracle c1T "example.com".toList c1Resp = (c1Resp, none) := by
  have h := C1_default_check_accepts_success_or_matching_category c1Oracle c1T
    "example.com".toList c1Resp (by decide)
  exact ⟨h.1.mpr (Or.inl rfl), h.2 (h.1.mpr (Or.inl rfl))⟩

/-- C2: for any verifier and any trust anchor built from a non-empty chain
`leaf :: rest`, a response whose new leaf has the same raw public-key
material as `leaf` is accepted unchanged, whatever the rest of the new
chain, the request host, or the verifier behavior (the fast path runs
before any chain verification). -/
theorem C2_fast_path_always_accepted
    (o : VerifyOracle) (name : List Char) (leaf : Cert) (rest : List Cert)
    (reqHost : List Char) (resp : TLSResp)
    (h : resp.peerLeaf.rawSPKI = leaf.rawSPKI) :
    roundTripVerify o (newHardValidationTransport o name leaf rest) reqHost resp
      = (resp, none) := by
  unfold roundTripVerify fastPathAccept newHardValidationTransport
  simp [h]

/-- C2 witness: fast path at concrete inputs, with a verifier that rejects
everything and an unrelated rest of chain. -/
theorem C2_witness :
    roundTripVerify ⟨fun _ _ _ _ => some 7⟩
      (newHardValidationTransport ⟨fun _ _ _ _ => some 7⟩ "pin.example".toList
        ⟨[9, 9], 0⟩ [])
      "other.example".toList ⟨⟨[9, 9], 3⟩, [⟨[4], 4⟩], false⟩
      = (⟨⟨[9, 9], 3⟩, [⟨[4], 4⟩], false⟩, none) :=
  C2_fast_path_always_accepted ⟨fun _ _ _ _ => some 7⟩ "pin.example".toList
    ⟨[9, 9], 0⟩ [] "other.example".toList ⟨⟨[9, 9], 3⟩, [⟨[4], 4⟩], false⟩ rfl

/-- C3: when the fast path and the two request-host verifications fail, and
— whenever the request host differs from the pinned server name — the two
pinned-name verifications fail as well, `RoundTrip` closes the response body
and returns the `errCouldNotVerify` (certificate changed) error, never
success. -/
theorem C3_fail_closed
    (o : VerifyOracle) (t : HVT) (reqHost : List Char) (resp : TLSResp)
    (h1 : fastPathAccept t resp = false)
    (h2 : defaultCheckAccept o t reqHost resp = false)
    (h3 : selfCheckAccept o t reqHost resp = false)
    (h4 : reqHost ≠ t.originalServerName →
          defaultCheckAccept o t t.originalServerName resp = false ∧
          selfCheckAccept o t t.originalServerName resp = false) :
    roundTripVerify o t reqHost resp =
      ({ resp with bodyClosed := true }, some errCouldNotVerify) := by
  unfold roundTripVerify
  rw [h1, h2, h3]
  by_cases hh : reqHost = t.originalServerName
  · simp [hh]
  · simp [hh, (h4 hh).1, (h4 hh).2]

/-- Verifier for the C3 witness: the original leaf fails with a type-3
error, every other leaf with a type-5 error, so no check can match. -/
def c3Oracle : VerifyOracle :=
  ⟨fun leaf _ _ _ => if leaf.serial = 0 then some 3 else some 5⟩

/-- C3 witness anchor, pinned to pin.example. -/
def c3T : HVT := newHardValidationTransport c3Oracle "pin.example".toList ⟨[1], 0⟩ []

/-- C3 witness response: a substituted leaf. -/
def c3Resp : TLSResp := ⟨⟨[2], 1⟩, [], false⟩

/-- C3 witness: all checks fail at a concrete instance (request host differs
from the pinned name), and the result is the closed body plus the
certificate-changed error. -/
theorem C3_witness :
    roundTripVerify c3Oracle c3T "other.example".toList c3Resp =
      ({ c3Resp with bodyClosed := true }, some errCouldNotVerify) :=
  C3_fail_closed c3Oracle c3T "other.example".toList c3Resp
    (by decide) rfl rfl (fun _ => ⟨rfl, rfl⟩)

/-- For a non-negative limit the `LimitedReader` yields exactly the first
`n` available bytes. -/
theorem limitedRead_nonneg (n : Int) (r : List Nat) (h : 0 ≤ n) :
    limitedRead n r = r.take n.toNat := by
  unfold limitedRead
  by_cases h0 : n ≤ 0
  · have hz : n = 0 := le_antisymm h0 h
    simp [hz]
  · simp [h0]

/-- C4: the claim states the body stream is unlimited when the
Content-Length header is absent.  False: `resp.ContentLength` keeps the Go
zero value `0` when the header is absent, so the `LimitedReader` built at
src/transport.go line 265 yields zero bytes even though the connection still
holds bytes. -/
theorem C4_counterexample :
    (simpleRoundTrip "HTTP/1.1 200 OK".toList [] [104, 105]).map
        SimpleResp.bodyBytes = .ok []
    ∧ ([104, 105] : List Nat) ≠ [] :=
  ⟨rfl, by decide⟩

/-- C4 (amended): on every successfully parsed response, the body stream is
a `LimitedReader` over the connection limited to the parsed content length —
so with the header present, non-negative and at most the available bytes it
yields exactly that many bytes; with the header absent the content length
defaults to `0` and the body yields no bytes; and closing the body closes
the underlying connection. -/
theorem C4_body_limited_by_content_length
    (line : List Char) (hdrs : List (List Char × List Char)) (remaining : List Nat)
    (resp : SimpleResp)
    (hok : simpleRoundTrip line hdrs remaining = .ok resp) :
    (headerGet hdrs "Content-Length".toList = [] →
      resp.contentLength = 0 ∧ resp.bodyBytes = [])
    ∧ (∀ n : Int, headerGet hdrs "Content-Length".toList ≠ [] →
        goParseInt64 (headerGet hdrs "Content-Length".toList) = some n →
        0 ≤ n → n.toNat ≤ remaining.length →
        resp.contentLength = n ∧ resp.bodyBytes = remaining.take n.toNat ∧
        resp.bodyBytes.length = n.toNat)
    ∧ resp.closerIsConn = true := by
  unfold simpleRoundTrip at hok
  cases hps : parseStatusLine line with
  | error e => rw [hps] at hok; exact Except.noConfusion hok
  | ok sl =>
    rw [hps] at hok
    dsimp only at hok
    by_cases hcl : headerGet hdrs "Content-Length".toList = []
    · rw [if_neg (not_not_intro hcl)] at hok
      have hr := Except.ok.inj hok
      refine ⟨fun _ => ⟨?_, ?_⟩, fun n hne => absurd hcl hne, ?_⟩
      · rw [← hr]
      · rw [← hr]
        show limitedRead 0 remaining = []
        rfl
      · rw [← hr]
    · rw [if_pos hcl] at hok
      cases hpi : goParseInt64 (headerGet hdrs "Content-Length".toList) with
      | none => rw [hpi] at hok; exact Except.noConfusion hok
      | some m =>
        rw [hpi] at hok
        have hr := Except.ok.inj hok
        refine ⟨fun h => absurd h hcl, fun n _ hn hnn hlen => ?_, by rw [← hr]⟩
        rw [Option.some.injEq] at hn
        subst hn
        refine ⟨by rw [← hr], ?_, ?_⟩
        · rw [← hr]
          show limitedRead m remaining = remaining.take m.toNat
          exact limitedRead_nonneg m remaining hnn
        · rw [← hr]
          show (limitedRead m remaining).length = m.toNat
          rw [limitedRead_nonneg m remaining hnn, List.length_take]
          exact min_eq_left hlen

/-- The C4 witness response: what the client returns for
`HTTP/1.1 200 OK` with `Content-Length: 2` over a connection holding three
more bytes. -/
def c4Resp : SimpleResp :=
  { statusLine := { proto := "HTTP/1.1".toList, status := "200 OK".toList,
                    statusCode := 200, protoMajor := 1, protoMinor := 1 }
    contentLength := 2
    headers := []
    bodyBytes := [104, 105]
    closerIsConn := true }

/-- C4 witness: the amended statement at a concrete parse with
`Content-Length: 2` and three available bytes — exactly two are yielded, and
the body closer is the connection. -/
theorem C4_witness :
    simpleRoundTrip "HTTP/1.1 200 OK".toList
        [("Content-Length".toList, "2".toList)] [104, 105, 106] = .ok c4Resp
    ∧ c4Resp.bodyBytes = [104, 105, 106].take 2
    ∧ c4Resp.bodyBytes.length = 2
    ∧ c4Resp.closerIsConn = true := by
  have h := C4_body_limited_by_content_length "HTTP/1.1 200 OK".toList
      [("Content-Length".toList, "2".toList)] [104, 105, 106] c4Resp rfl
  have h2 := h.2.1 2 (by decide) (by decide) (by decide) (by decide)
  exact ⟨rfl, h2.2.1, h2.2.2, h.2.2⟩

/-- The first space-delimited token of the status text (src/transport.go
lines 224-229): the status text is everything after the first space of the
status line with leading spaces trimmed, and the token runs to its first
space, or to its end when it holds none. -/
def statusToken (line : List Char) : List Char :=
  (trimLeftSpaces (afterFirstSpace line)).takeWhile notSpace

/-- C5: on any status line that survives the first-space split, parsing
fails with the malformed-status-code error exactly when the first
space-delimited token of the status text is not exactly 3 characters long or
does not `Atoi`-parse as a non-negative base-10 integer; in particular
`HTTP/1.1 2 OK` is rejected with that error and `HTTP/1.1 200 OK` yields
status code 200. -/
theorem C5_malformed_status_code_iff
    (line : List Char) (hsp : hasSpace line = true) :
    (parseStatusLine line = .error .malformedStatusCode ↔
      ((statusToken line).length ≠ 3 ∨ parsesNonNegInt (statusToken line) = false))
    ∧ parseStatusLine "HTTP/1.1 2 OK".toList = .error .malformedStatusCode
    ∧ (parseStatusLine "HTTP/1.1 200 OK".toList).map StatusLine.statusCode
        = .ok 200 := by
  refine ⟨?_, rfl, rfl⟩
  unfold parseStatusLine statusToken parsesNonNegInt
  rw [if_pos hsp]
  dsimp only
  split
  · rename_i hlen
    exact iff_of_true rfl (Or.inl hlen)
  · rename_i hlen3
    split
    · rename_i heq
      exact iff_of_true rfl (Or.inr (by rw [heq]))
    · rename_i n heq
      by_cases hneg : n < 0
      · rw [if_pos hneg]
        refine iff_of_true rfl (Or.inr ?_)
        rw [heq]
        exact decide_eq_false (not_le.mpr hneg)
      · rw [if_neg hneg]
        have hRHS : ¬(((trimLeftSpaces (afterFirstSpace line)).takeWhile
            notSpace).length ≠ 3 ∨
            (match goParseInt64 ((trimLeftSpaces (afterFirstSpace line)).takeWhile
              notSpace) with
              | some k => decide (0 ≤ k)
              | none => false) = false) := by
          rintro (h1 | h2)
          · exact h1 (not_not.mp hlen3)
          · rw [heq] at h2
            exact of_decide_eq_false h2 (not_lt.mp hneg)
        split
        · exact iff_of_false (fun h => ParseErr.noConfusion (Except.error.inj h)) hRHS
        · exact iff_of_false (fun h => Except.noConfusion h) hRHS

/-- C5 witness: a token of the right length that is not a number is
rejected with the malformed-status-code error. -/
theorem C5_witness :
    parseStatusLine "HTTP/1.1 5xx OK".toList = .error .malformedStatusCode :=
  (C5_malformed_status_code_iff "HTTP/1.1 5xx OK".toList (by decide)).1.mpr
    (Or.inr (by decide))

/-- C9: a Content-Length value that parses as a negative integer is not a
malformed-header error: the round trip succeeds and the `LimitedReader`
built with the negative limit yields no bytes. -/
theorem C9_negative_content_length_accepted
    (line : List Char) (hdrs : List (List Char × List Char)) (remaining : List Nat)
    (sl : StatusLine) (n : Int)
    (hline : parseStatusLine line = .ok sl)
    (hne : headerGet hdrs "Content-Length".toList ≠ [])
    (hparse : goParseInt64 (headerGet hdrs "Content-Length".toList) = some n)
    (hneg : n < 0) :
    simpleRoundTrip line hdrs remaining =
      .ok { statusLine := sl, contentLength := n,
            headers := headerDel (headerDel hdrs "Content-Length".toList)
              "Trailer".toList,
            bodyBytes := [], closerIsConn := true } := by
  unfold simpleRoundTrip
  rw [hline]
  simp only [hne, hparse, ne_eq, not_false_eq_true, if_true]
  rw [Except.ok.injEq]
  have : limitedRead n remaining = [] := by
    unfold limitedRead
    simp [hneg.le]
  rw [this]

/-- C9 witness: `Content-Length: -5` is accepted and the body yields no
bytes although two are available. -/
theorem C9_witness :
    simpleRoundTrip "HTTP/1.1 200 OK".toList
        [("Content-Length".toList, "-5".toList)] [104, 105] =
      .ok { statusLine := { proto := "HTTP/1.1".toList, status := "200 OK".toList,
                            statusCode := 200, protoMajor := 1, protoMinor := 1 },
            contentLength := -5, headers := [], bodyBytes := [],
            closerIsConn := true } :=
  C9_negative_content_length_accepted "HTTP/1.1 200 OK".toList
    [("Content-Length".toList, "-5".toList)] [104, 105] _ (-5)
    rfl (by decide) (by decide) (by decide)

/-- The normalize loop never emits two consecutive separators after the
previously emitted rune. -/
theorem normalizeRunes_chain (content : List Char) (prev : Char) :
    (prev :: normalizeRunes content prev).Chain'
      (fun a b => ¬(a = ' ' ∧ b = ' ')) := by
  induction content generalizing prev with
  | nil => simp [normalizeRunes]
  | cons c rest ih =>
    unfold normalizeRunes
    dsimp only
    by_cases h : wordRune c = ' ' ∧ prev = ' '
    · rw [if_pos h]
      exact ih prev
    · rw [if_neg h]
      exact List.Chain'.cons (fun hc => h ⟨hc.2, hc.1⟩) (ih (wordRune c))

/-- C6: the claim states the stream fed to the phrase matcher is bracketed
by exactly one separator at each end, with separator runs collapsed, and
that `Hello,  World!` is fed as `" hello world "`.  False: the closing
bracket separator (src/phrase_scan.go line 69) is scanned unconditionally,
after a content-final punctuation rune has already been normalized to a
separator, so `Hello,  World!` is fed as `" hello world  "` with two
trailing separators. -/
theorem C6_counterexample :
    scanStream "Hello,  World!".toList = " hello world  ".toList
    ∧ scanStream "Hello,  World!".toList ≠ " hello world ".toList :=
  ⟨by decide, by decide⟩

/-- C6 (amended): within the stream up to and including the opening
bracket and the normalized content, no two consecutive separators occur —
the stream starts with exactly one separator and interior runs collapse to
one; the closing bracket separator is then appended unconditionally, so a
document whose normalized content ends in a separator is fed with two
trailing separators, and `Hello,  World!` is fed as `" hello world  "`. -/
theorem C6_collapsed_and_bracketed :
    (∀ content : List Char,
      (' ' :: normalizeRunes content ' ').Chain' (fun a b => ¬(a = ' ' ∧ b = ' ')))
    ∧ (∀ content : List Char,
        scanStream content = ' ' :: (normalizeRunes content ' ' ++ [' ']))
    ∧ scanStream "Hello,  World!".toList = " hello world  ".toList :=
  ⟨fun content => normalizeRunes_chain content ' ', fun _ => rfl, by decide⟩

/-- C7: with the gzip Content-Encoding flag, an empty compressed body
yields empty content, without error and independently of the decompressor
(which is never constructed); a non-empty body that the decompressor
inverts yields the original uncompressed bytes with the Content-Encoding
header removed. -/
theorem C7_gzip_decompression
    (headers : List (List Char × List Char)) (body orig : List Nat)
    (hgz : headerGet headers "Content-Encoding".toList = "gzip".toList) :
    (body = [] → ∀ gunzip, responseContent gunzip headers body = some ([], headers))
    ∧ (∀ gunzip, body ≠ [] → gunzip body = some orig →
        responseContent gunzip headers body =
          some (orig, headerDel headers "Content-Encoding".toList)) := by
  constructor
  · intro hb gunzip
    unfold responseContent
    rw [if_pos hgz, if_pos hb]
  · intro gunzip hb hdec
    unfold responseContent
    rw [if_pos hgz, if_neg hb, hdec]

/-- Decompressor for the C7 witness: inverts exactly the two-byte payload. -/
def c7gunzip : List Nat → Option (List Nat) :=
  fun b => if b = [31, 139] then some [1, 2] else none

/-- C7 witness: the statement at a concrete gzip-flagged response, for both
the empty and the valid non-empty body. -/
theorem C7_witness :
    responseContent c7gunzip [("Content-Encoding".toList, "gzip".toList)] [] =
      some ([], [("Content-Encoding".toList, "gzip".toList)])
    ∧ responseContent c7gunzip [("Content-Encoding".toList, "gzip".toList)]
        [31, 139] = some ([1, 2], []) :=
  ⟨(C7_gzip_decompression [("Content-Encoding".toList, "gzip".toList)] [] [1, 2]
      (by decide)).1 rfl c7gunzip,
   (C7_gzip_decompression [("Content-Encoding".toList, "gzip".toList)] [31, 139]
      [1, 2] (by decide)).2 c7gunzip (by decide) (by decide)⟩

/-- Deleting one header key leaves the lookup of every other key unchanged. -/
theorem headerGet_headerDel (hs : List (List Char × List Char)) (k k0 : List Char)
    (h : k ≠ k0) : headerGet (headerDel hs k0) k = headerGet hs k := by
  induction hs with
  | nil => rfl
  | cons p rest ih =>
    unfold headerDel at ih ⊢
    rw [List.filter_cons]
    by_cases hp : p.1 = k0
    · have hc : (decide ¬p.1 = k0) = false := by simp [hp]
      rw [hc, if_neg (by simp)]
      rw [ih]
      have hkk : (p.1 == k) = false :=
        beq_eq_false_iff_ne.mpr (by rw [hp]; exact Ne.symm h)
      unfold headerGet
      rw [List.find?_cons, hkk]
    · have hc : (decide ¬p.1 = k0) = true := by simp [hp]
      rw [hc, if_pos rfl]
      unfold headerGet
      rw [List.find?_cons, List.find?_cons]
      cases hk : (p.1 == k) with
      | true => rfl
      | false => exact ih

/-- C10: with the gzip flag and an empty compressed body the header set is
returned untouched — the Content-Encoding header stays in place (it is
removed only on the non-empty decompression path) — and on every successful
path every header other than Content-Encoding reads the same as before. -/
theorem C10_headers_preserved
    (headers : List (List Char × List Char)) (body : List Nat)
    (gunzip : List Nat → Option (List Nat)) :
    (headerGet headers "Content-Encoding".toList = "gzip".toList → body = [] →
      responseContent gunzip headers body = some ([], headers))
    ∧ (headerGet headers "Content-Encoding".toList ≠ "gzip".toList →
      responseContent gunzip headers body = some (body, headers))
    ∧ (∀ content hs, responseContent gunzip headers body = some (content, hs) →
        ∀ k, k ≠ "Content-Encoding".toList → headerGet hs k = headerGet headers k) := by
  refine ⟨fun hgz hb => ?_, fun hgz => ?_, fun content hs hres k hk => ?_⟩
  · unfold responseContent
    rw [if_pos hgz, if_pos hb]
  · unfold responseContent
    rw [if_neg hgz]
  · unfold responseContent at hres
    by_cases hgz : headerGet headers "Content-Encoding".toList = "gzip".toList
    · rw [if_pos hgz] at hres
      by_cases hb : body = []
      · rw [if_pos hb] at hres
        obtain ⟨-, rfl⟩ := Prod.mk.injEq .. ▸ Option.some.inj hres
        rfl
      · rw [if_neg hb] at hres
        cases hdec : gunzip body with
        | none => rw [hdec] at hres; exact Option.noConfusion hres
        | some c =>
          rw [hdec] at hres
          obtain ⟨-, rfl⟩ := Prod.mk.injEq .. ▸ Option.some.inj hres
          exact headerGet_headerDel headers k "Content-Encoding".toList hk
    · rw [if_neg hgz] at hres
      obtain ⟨-, rfl⟩ := Prod.mk.injEq .. ▸ Option.some.inj hres
      rfl

/-- C10 witness: a gzip-flagged response with an empty body keeps its
Content-Encoding header, and an unrelated header survives the non-empty
decompression path. -/
theorem C10_witness :
    responseContent c7gunzip
      [("X-Test".toList, "v".toList), ("Content-Encoding".toList, "gzip".toList)]
      [] =
      some ([], [("X-Test".toList, "v".toList),
                 ("Content-Encoding".toList, "gzip".toList)]) := by
  have h := C10_headers_preserved
    [("X-Test".toList, "v".toList), ("Content-Encoding".toList, "gzip".toList)]
    [] c7gunzip
  exact h.1 (by decide) rfl

/-- C8: a request whose method is not GET gets, without error, a response
with status code 405 and an empty body, and neither the network nor the
MIME table is consulted (the result is the same for every `net` and
`mimeOf`). -/
theorem C8_non_get_returns_405_empty
    (net : List Char → Option (List Nat)) (mimeOf : List Char → List Char)
    (method host urlPath : List Char)
    (h : method ≠ "GET".toList) :
    ftpRoundTrip net mimeOf method host urlPath =
      some { statusCode := 405, protoMajor := 0, protoMinor := 0,
             bodyBytes := [], headers := [] } := by
  unfold ftpRoundTrip
  rw [if_pos h]

/-- C8 witness: a POST request at concrete inputs, with a network oracle
that would deliver bytes if consulted. -/
theorem C8_witness :
    ftpRoundTrip (fun _ => some [1]) (fun _ => "text/plain".toList)
        "POST".toList "example.com".toList "/f.txt".toList =
      some { statusCode := 405, protoMajor := 0, protoMinor := 0,
             bodyBytes := [], headers := [] } :=
  C8_non_get_returns_405_empty (fun _ => some [1]) (fun _ => "text/plain".toList)
    "POST".toList "example.com".toList "/f.txt".toList (by decide)

end Redwood
